import Mathlib

/-!
# Power sequencing of secondary cores on sun9i (psci-mcpm.c)

A shallow embedding of `arch/arm/cpu/armv7/sunxi/psci-mcpm.c`.

* 32-bit machine words are natural numbers; every store truncates modulo `2 ^ 32`.
* The memory-mapped register blocks (`struct sunxi_prcm_reg`, `struct sunxi_cpucfg_reg`)
  are a register file indexed by `Reg`.
* Every hardware access (MMIO read or write, CP15 read or write, the call that records the
  target PC) appends an `Event` to the trace of the machine, so that the order of accesses can
  be stated.
* The secure physical timer is simulated: the sequence `timer : Nat → Nat` gives the value
  returned by the successive reads of CNTP_CTL, and the busy-wait loop of `__udelay_sec` runs
  on a bound `fuel` on the number of polls of one delay.
-/

namespace PsciMcpm

/-! ## Data model -/

/-- The registers of the PRCM block and of the CPUCFG block that the file accesses. -/
inductive Reg where
  | cpu_soft_entry
  | cpu_rst (cluster : Nat)
  | cpu_pwroff (cluster : Nat)
  | cpu_pwr_clamp (cluster core : Nat)
  | cluster_ctrl0 (cluster : Nat)
  | cluster_reset (cluster : Nat)
  deriving DecidableEq, Repr

/-- One hardware access, as recorded in the trace. -/
inductive Event where
  | save_target_pc (cpuid pc : Nat)
  | readl (r : Reg) (val : Nat)
  | writel (val : Nat) (r : Reg)
  | write_cntp_tval (val : Nat)
  | write_cntp_ctl (val : Nat)
  | read_cntp_ctl (val : Nat)
  | read_scr (val : Nat)
  | write_scr (val : Nat)
  deriving DecidableEq, Repr

/-- The machine state seen by the secure monitor code. `polls` counts the reads of CNTP_CTL
made so far, that is the position reached in the simulated timer sequence. -/
structure Machine where
  regs : Reg → Nat
  target_pc : Nat → Nat
  scr : Nat
  cntp_tval : Nat
  cntp_ctl : Nat
  polls : Nat
  trace : List Event

/-- The constants and macros that the file takes from headers that are not part of it:
`CONFIG_TIMER_CLK_FREQ` (config.h), the address of `psci_cpu_entry`, the bit masks of
`asm/arch/cpucfg_sun9i.h` and the error code `ARM_PSCI_RET_INVAL` (asm/psci.h), of which
the specification only says that it is not zero. -/
structure Platform where
  CONFIG_TIMER_CLK_FREQ : Nat
  psci_cpu_entry : Nat
  CPUCFG_CX_CTRL0_L1_RST_DISABLE : Nat → Nat
  CPUCFG_CX_RST_CORE : Nat → Nat
  CPUCFG_CX_RST_DBG : Nat → Nat
  CPUCFG_CX_RST_ETM : Nat → Nat
  ARM_PSCI_RET_INVAL : Int
  inval_ne_zero : ARM_PSCI_RET_INVAL ≠ 0

/-- Modelled from the spec: the macro `ARM_PSCI_RET_SUCCESS` of asm/psci.h, which is not in
the file; the specification gives `SUCCESS=0`. -/
def ARM_PSCI_RET_SUCCESS : Int := 0

/-- Modelled from the spec: the macro `BIT` of linux/bitops.h, which is not in the file;
`BIT(n)` is the word with only bit `n` set. -/
def BIT (n : Nat) : Nat := 1 <<< n

/-! ## Primitive accesses -/

/-- Modelled from the spec: `writel` of asm/io.h, a 32-bit store to a device register. -/
def writel (val : Nat) (r : Reg) (s : Machine) : Machine :=
  { s with
    regs := fun x => if x = r then val % 2 ^ 32 else s.regs x
    trace := s.trace ++ [Event.writel (val % 2 ^ 32) r] }

/-- Modelled from the spec: `readl` of asm/io.h, a 32-bit load from a device register; it
returns the value last written. -/
def readl (r : Reg) (s : Machine) : Nat × Machine :=
  (s.regs r, { s with trace := s.trace ++ [Event.readl r (s.regs r)] })

/-- Modelled from the spec: `clrbits_le32` of asm/io.h, the non-atomic read-modify-write
`writel(readl(addr) & ~clear, addr)`. -/
def clrbits_le32 (r : Reg) (clear : Nat) (s : Machine) : Machine :=
  let (v, s) := readl r s
  writel (v &&& (0xFFFFFFFF ^^^ clear)) r s

/-- Modelled from the spec: `setbits_le32` of asm/io.h, the non-atomic read-modify-write
`writel(readl(addr) | set, addr)`. -/
def setbits_le32 (r : Reg) (set : Nat) (s : Machine) : Machine :=
  let (v, s) := readl r s
  writel (v ||| set) r s

/-- Modelled from the spec: `psci_save_target_pc`, owned by the generic PSCI code; it records
`pc` in the target-PC table under the key `cpuid`. -/
def psci_save_target_pc (cpuid pc : Nat) (s : Machine) : Machine :=
  { s with
    target_pc := fun c => if c = cpuid then pc else s.target_pc c
    trace := s.trace ++ [Event.save_target_pc cpuid pc] }

/-- Modelled from the spec: `isb` of asm/armv7.h, an instruction synchronisation barrier; it
changes nothing in a sequential model. -/
def isb (s : Machine) : Machine := s

/-- The value `psci_get_cpu_id` returns when MPIDR holds `mpidr`, instruction by
instruction:
`lsr r0, r3, #6`, `and r3, r3, #3`, `and r0, r0, #4`, `orr r0, r0, r3`. -/
def psci_get_cpu_id (mpidr : Nat) : Nat :=
  let r3 := mpidr
  let r0 := r3 >>> 6
  let r3 := r3 &&& 3
  let r0 := r0 &&& 4
  let r0 := r0 ||| r3
  r0

def cp15_write_cntp_tval (tval : Nat) (s : Machine) : Machine :=
  { s with cntp_tval := tval, trace := s.trace ++ [Event.write_cntp_tval tval] }

def cp15_write_cntp_ctl (val : Nat) (s : Machine) : Machine :=
  { s with cntp_ctl := val, trace := s.trace ++ [Event.write_cntp_ctl val] }

/-- A read of CNTP_CTL returns the next value of the simulated timer sequence. -/
def cp15_read_cntp_ctl (timer : Nat → Nat) (s : Machine) : Nat × Machine :=
  (timer s.polls,
    { s with polls := s.polls + 1, trace := s.trace ++ [Event.read_cntp_ctl (timer s.polls)] })

def ONE_US (P : Platform) : Nat := P.CONFIG_TIMER_CLK_FREQ / 1000000

/-- The loop `do { isb(); reg = cp15_read_cntp_ctl(); } while (!(reg & BIT(2)));` of
`__udelay_sec`, run for at most `fuel` iterations: `none` when the loop has not ended by
then. -/
def udelay_poll (timer : Nat → Nat) : Nat → Machine → Option Machine
  | 0, _ => none
  | fuel + 1, s =>
    let s := isb s
    let (reg, s) := cp15_read_cntp_ctl timer s
    if reg &&& BIT 2 = 0 then udelay_poll timer fuel s else some s

def __udelay_sec (P : Platform) (timer : Nat → Nat) (fuel : Nat) (us : Nat) (s : Machine) :
    Option Machine :=
  let reg := (ONE_US P * us) % 2 ^ 32
  let s := cp15_write_cntp_tval reg s
  let s := isb s
  let s := cp15_write_cntp_ctl 3 s
  match udelay_poll timer fuel s with
  | none => none
  | some s =>
    let s := cp15_write_cntp_ctl 0 s
    let s := isb s
    some s

def clamp_release (P : Platform) (timer : Nat → Nat) (fuel : Nat) (clamp : Reg) (s : Machine) :
    Option Machine := do
  let s := writel 0xff clamp s
  let s ← __udelay_sec P timer fuel 10 s
  let s := writel 0xfe clamp s
  let s ← __udelay_sec P timer fuel 10 s
  let s := writel 0xf8 clamp s
  let s ← __udelay_sec P timer fuel 10 s
  let s := writel 0xf0 clamp s
  let s ← __udelay_sec P timer fuel 10 s
  let s := writel 0x00 clamp s
  pure s

def clamp_set (clamp : Reg) (s : Machine) : Machine :=
  writel 0xff clamp s

def sunxi_core_power_switch (P : Platform) (timer : Nat → Nat) (fuel : Nat)
    (clamp pwroff : Reg) (on_ : Bool) (cpu : Nat) (s : Machine) : Option Machine :=
  if on_ then do
    let s ← clamp_release P timer fuel clamp s
    let s ← __udelay_sec P timer fuel 20 s
    let s := clrbits_le32 pwroff (BIT cpu) s
    pure s
  else do
    let s := setbits_le32 pwroff (BIT cpu) s
    let s ← __udelay_sec P timer fuel 20 s
    let s := clamp_set clamp s
    pure s

/-- The local `cluster` of `sunxi_cpu_set_power`: `(cpu >> 2) & 0x1`. -/
def sunxi_cpu_set_power_cluster (cpu : Nat) : Nat := (cpu >>> 2) &&& 0x1

/-- The local `core` of `sunxi_cpu_set_power`: `cpu & 0x3`. -/
def sunxi_cpu_set_power_core (cpu : Nat) : Nat := cpu &&& 0x3

def sunxi_cpu_set_power (P : Platform) (timer : Nat → Nat) (fuel : Nat) (cpu : Nat) (on_ : Bool)
    (s : Machine) : Option Machine :=
  let cluster := sunxi_cpu_set_power_cluster cpu
  let core := sunxi_cpu_set_power_core cpu
  sunxi_core_power_switch P timer fuel (Reg.cpu_pwr_clamp cluster core)
    (Reg.cpu_pwroff cluster) on_ core s

def cp15_read_scr (s : Machine) : Nat × Machine :=
  (s.scr, { s with trace := s.trace ++ [Event.read_scr s.scr] })

def cp15_write_scr (scr : Nat) (s : Machine) : Machine :=
  let s := { s with scr := scr % 2 ^ 32, trace := s.trace ++ [Event.write_scr (scr % 2 ^ 32)] }
  isb s

/-- The local `cluster` of `psci_cpu_on`: `(mpidr >> 8) & 0x1`. -/
def psci_cpu_on_cluster (mpidr : Nat) : Nat := (mpidr >>> 8) &&& 0x1

/-- The local `cpu` of `psci_cpu_on`: `mpidr & 0x3`. -/
def psci_cpu_on_cpu (mpidr : Nat) : Nat := mpidr &&& 0x3

/-- The local `cpuid` of `psci_cpu_on`: `cpu | (cluster << 2)`. -/
def psci_cpu_on_cpuid (mpidr : Nat) : Nat :=
  psci_cpu_on_cpu mpidr ||| (psci_cpu_on_cluster mpidr <<< 2)

/-- The function `psci_cpu_on`. The result is `none` when one of its delays has not ended
within `fuel` polls, and otherwise the returned code with the machine it leaves. -/
def psci_cpu_on (P : Platform) (timer : Nat → Nat) (fuel : Nat) (unused mpidr pc : Nat)
    (s : Machine) : Option (Int × Machine) :=
  let _ := unused
  let cluster := psci_cpu_on_cluster mpidr
  let cpu := psci_cpu_on_cpu mpidr
  let cpuid := psci_cpu_on_cpuid mpidr
  if cluster > 0 then
    some (P.ARM_PSCI_RET_INVAL, s)
  else do
    let s := psci_save_target_pc cpuid pc s
    let s := writel P.psci_cpu_entry Reg.cpu_soft_entry s
    let s := clrbits_le32 (Reg.cpu_rst cluster) (BIT cpu) s
    let s := if cluster = 0 then
        clrbits_le32 (Reg.cluster_ctrl0 cluster) (P.CPUCFG_CX_CTRL0_L1_RST_DISABLE cpu) s
      else s
    let s := clrbits_le32 (Reg.cluster_reset cluster) (P.CPUCFG_CX_RST_DBG cpu) s
    let s := if cluster = 0 then
        clrbits_le32 (Reg.cluster_reset cluster) (P.CPUCFG_CX_RST_ETM cpu) s
      else s
    let s ← sunxi_cpu_set_power P timer fuel cpu true s
    let s := setbits_le32 (Reg.cpu_rst cluster) (BIT cpu) s
    let s := setbits_le32 (Reg.cluster_reset cluster) (P.CPUCFG_CX_RST_CORE cpu) s
    let s := if cluster = 0 then
        setbits_le32 (Reg.cluster_reset cluster) (P.CPUCFG_CX_RST_ETM cpu) s
      else s
    let s := setbits_le32 (Reg.cluster_reset cluster) (P.CPUCFG_CX_RST_DBG cpu) s
    pure (ARM_PSCI_RET_SUCCESS, s)

def psci_arch_init (s : Machine) : Machine :=
  let (reg, s) := cp15_read_scr s
  let reg := reg &&& (0xFFFFFFFF ^^^ BIT 0)
  cp15_write_scr reg s

/-! ## Vocabulary of the statements -/

/-- The expiry flag, bit 2 of CNTP_CTL, is first seen set at the read number `n` (counted
from 0) after position `pos` of the timer sequence: that read has the flag set and the `n`
reads before it do not. -/
def FirstExpiry (timer : Nat → Nat) (pos n : Nat) : Prop :=
  timer (pos + n) &&& BIT 2 ≠ 0 ∧ ∀ j, j < n → timer (pos + j) &&& BIT 2 = 0

instance FirstExpiry.decidable (timer : Nat → Nat) (pos n : Nat) :
    Decidable (FirstExpiry timer pos n) :=
  inferInstanceAs
    (Decidable (timer (pos + n) &&& BIT 2 ≠ 0 ∧ ∀ j, j < n → timer (pos + j) &&& BIT 2 = 0))

/-- The events of `n` successive reads of CNTP_CTL from position `pos` on. -/
def poll_events (timer : Nat → Nat) : Nat → Nat → List Event
  | _, 0 => []
  | pos, n + 1 => Event.read_cntp_ctl (timer pos) :: poll_events timer (pos + 1) n

/-- The events of one delay of `us` microseconds that starts at position `pos` of the timer
sequence and sees the flag at its read number `n`: the countdown value, the enable, `n + 1`
reads, the disable. -/
def udelay_events (P : Platform) (timer : Nat → Nat) (pos n us : Nat) : List Event :=
  [Event.write_cntp_tval ((ONE_US P * us) % 2 ^ 32), Event.write_cntp_ctl 3]
    ++ poll_events timer pos (n + 1) ++ [Event.write_cntp_ctl 0]

/-- The machine that a delay of `us` microseconds leaves when it sees the flag at its read
number `n`. -/
def udelay_done (P : Platform) (timer : Nat → Nat) (us n : Nat) (s : Machine) : Machine :=
  { s with
    cntp_tval := (ONE_US P * us) % 2 ^ 32
    cntp_ctl := 0
    polls := s.polls + (n + 1)
    trace := s.trace ++ udelay_events P timer s.polls n us }

/-- The word that `clrbits_le32` stores when the register holds `v`. -/
def clr32 (v mask : Nat) : Nat := (v &&& (0xFFFFFFFF ^^^ mask)) % 2 ^ 32

/-- The word that `setbits_le32` stores when the register holds `v`. -/
def set32 (v mask : Nat) : Nat := (v ||| mask) % 2 ^ 32

/-- The two events of clearing the bits `mask` of register `r` that holds `v`. -/
def clear_events (r : Reg) (v mask : Nat) : List Event :=
  [Event.readl r v, Event.writel (clr32 v mask) r]

/-- The two events of setting the bits `mask` of register `r` that holds `v`. -/
def set_events (r : Reg) (v mask : Nat) : List Event :=
  [Event.readl r v, Event.writel (set32 v mask) r]

/-- The five delays of a power-on that starts at position `pos` of the timer sequence see the
flag at their reads number `n1`, ..., `n5`. -/
def DelaysExpire (timer : Nat → Nat) (pos n1 n2 n3 n4 n5 : Nat) : Prop :=
  FirstExpiry timer pos n1
  ∧ FirstExpiry timer (pos + (n1 + 1)) n2
  ∧ FirstExpiry timer (pos + (n1 + 1) + (n2 + 1)) n3
  ∧ FirstExpiry timer (pos + (n1 + 1) + (n2 + 1) + (n3 + 1)) n4
  ∧ FirstExpiry timer (pos + (n1 + 1) + (n2 + 1) + (n3 + 1) + (n4 + 1)) n5

instance DelaysExpire.decidable (timer : Nat → Nat) (pos n1 n2 n3 n4 n5 : Nat) :
    Decidable (DelaysExpire timer pos n1 n2 n3 n4 n5) :=
  inferInstanceAs (Decidable (_ ∧ _ ∧ _ ∧ _ ∧ _))

/-- The machine that `clamp_release` leaves when its four delays see the flag at their reads
number `n1`, ..., `n4`. -/
def clamp_release_done (P : Platform) (timer : Nat → Nat) (clamp : Reg) (n1 n2 n3 n4 : Nat)
    (s : Machine) : Machine :=
  writel 0x00 clamp (udelay_done P timer 10 n4
    (writel 0xf0 clamp (udelay_done P timer 10 n3
      (writel 0xf8 clamp (udelay_done P timer 10 n2
        (writel 0xfe clamp (udelay_done P timer 10 n1
          (writel 0xff clamp s))))))))

/-- The machine that `psci_cpu_on` leaves for core `k` of cluster 0 when its five delays see
the flag at their reads number `n1`, ..., `n5`. -/
def cpu_on_done (P : Platform) (timer : Nat → Nat) (k pc n1 n2 n3 n4 n5 : Nat) (s : Machine) :
    Machine :=
  let s := psci_save_target_pc k pc s
  let s := writel P.psci_cpu_entry Reg.cpu_soft_entry s
  let s := clrbits_le32 (Reg.cpu_rst 0) (BIT k) s
  let s := clrbits_le32 (Reg.cluster_ctrl0 0) (P.CPUCFG_CX_CTRL0_L1_RST_DISABLE k) s
  let s := clrbits_le32 (Reg.cluster_reset 0) (P.CPUCFG_CX_RST_DBG k) s
  let s := clrbits_le32 (Reg.cluster_reset 0) (P.CPUCFG_CX_RST_ETM k) s
  let s := clamp_release_done P timer (Reg.cpu_pwr_clamp 0 k) n1 n2 n3 n4 s
  let s := udelay_done P timer 20 n5 s
  let s := clrbits_le32 (Reg.cpu_pwroff 0) (BIT k) s
  let s := setbits_le32 (Reg.cpu_rst 0) (BIT k) s
  let s := setbits_le32 (Reg.cluster_reset 0) (P.CPUCFG_CX_RST_CORE k) s
  let s := setbits_le32 (Reg.cluster_reset 0) (P.CPUCFG_CX_RST_ETM k) s
  let s := setbits_le32 (Reg.cluster_reset 0) (P.CPUCFG_CX_RST_DBG k) s
  s

/-- The accesses of a power-on of core `k` of cluster 0 in the order in which the
specification lists them, on a machine `s` whose five delays see the flag at their reads
number `n1`, ..., `n5`: each clearing or setting of bits is the read of the register followed
by the write of the changed word, and each delay is the block `udelay_events`. -/
def cpu_on_events (P : Platform) (timer : Nat → Nat) (k pc n1 n2 n3 n4 n5 : Nat)
    (s : Machine) : List Event :=
  let clamp := Reg.cpu_pwr_clamp 0 k
  let rst0 := s.regs (Reg.cpu_rst 0)
  let rst1 := clr32 rst0 (BIT k)
  let cr0 := s.regs (Reg.cluster_reset 0)
  let cr1 := clr32 cr0 (P.CPUCFG_CX_RST_DBG k)
  let cr2 := clr32 cr1 (P.CPUCFG_CX_RST_ETM k)
  let cr3 := set32 cr2 (P.CPUCFG_CX_RST_CORE k)
  let cr4 := set32 cr3 (P.CPUCFG_CX_RST_ETM k)
  let p1 := s.polls
  let p2 := p1 + (n1 + 1)
  let p3 := p2 + (n2 + 1)
  let p4 := p3 + (n3 + 1)
  let p5 := p4 + (n4 + 1)
  [Event.save_target_pc k pc]
  -- write the address of the entry routine to cpu_soft_entry
  ++ [Event.writel (P.psci_cpu_entry % 2 ^ 32) Reg.cpu_soft_entry]
  -- clear bit k of cpu_rst[0] (assert power-on reset)
  ++ clear_events (Reg.cpu_rst 0) rst0 (BIT k)
  -- clear the L1-reset-disable bit of core k in cluster[0].ctrl0
  ++ clear_events (Reg.cluster_ctrl0 0) (s.regs (Reg.cluster_ctrl0 0))
      (P.CPUCFG_CX_CTRL0_L1_RST_DISABLE k)
  -- clear the debug bit of core k in cluster_reset[0]
  ++ clear_events (Reg.cluster_reset 0) cr0 (P.CPUCFG_CX_RST_DBG k)
  -- clear the ETM bit of core k in cluster_reset[0]
  ++ clear_events (Reg.cluster_reset 0) cr1 (P.CPUCFG_CX_RST_ETM k)
  -- the clamp ramp, with a delay of 10 microseconds between consecutive writes
  ++ [Event.writel 0xff clamp]
  ++ udelay_events P timer p1 n1 10
  ++ [Event.writel 0xfe clamp]
  ++ udelay_events P timer p2 n2 10
  ++ [Event.writel 0xf8 clamp]
  ++ udelay_events P timer p3 n3 10
  ++ [Event.writel 0xf0 clamp]
  ++ udelay_events P timer p4 n4 10
  ++ [Event.writel 0x00 clamp]
  -- delay 20 microseconds
  ++ udelay_events P timer p5 n5 20
  -- clear bit k of cpu_pwroff[0]
  ++ clear_events (Reg.cpu_pwroff 0) (s.regs (Reg.cpu_pwroff 0)) (BIT k)
  -- set bit k of cpu_rst[0]
  ++ set_events (Reg.cpu_rst 0) rst1 (BIT k)
  -- set the core-reset bit of core k in cluster_reset[0]
  ++ set_events (Reg.cluster_reset 0) cr2 (P.CPUCFG_CX_RST_CORE k)
  -- set the ETM bit of core k
  ++ set_events (Reg.cluster_reset 0) cr3 (P.CPUCFG_CX_RST_ETM k)
  -- set the debug bit of core k
  ++ set_events (Reg.cluster_reset 0) cr4 (P.CPUCFG_CX_RST_DBG k)

/-- The registers that the MMIO writes of a list of events store to, in order. -/
def written (evs : List Event) : List Reg :=
  evs.filterMap fun e =>
    match e with
    | Event.writel _ r => some r
    | _ => none

/-! ## Concrete inputs -/

/-- An instance with the values of the sun9i (A80) headers: a 24 MHz timer, the masks of
cpucfg_sun9i.h and the PSCI code -2 for invalid parameters. -/
def sun9i : Platform where
  CONFIG_TIMER_CLK_FREQ := 24000000
  psci_cpu_entry := 0x4a000040
  CPUCFG_CX_CTRL0_L1_RST_DISABLE := fun n => BIT n
  CPUCFG_CX_RST_CORE := fun n => BIT n
  CPUCFG_CX_RST_DBG := fun n => BIT (16 + n)
  CPUCFG_CX_RST_ETM := fun n => BIT (20 + n)
  ARM_PSCI_RET_INVAL := -2
  inval_ne_zero := by decide

/-- The same platform with a 1 MHz timer. -/
def sun9i_1mhz : Platform := { sun9i with CONFIG_TIMER_CLK_FREQ := 1000000 }

/-- A machine in which only core 0 of cluster 0 runs: the other cores are in reset, gated
and clamped. -/
def boot_machine : Machine where
  regs := fun r =>
    match r with
    | Reg.cpu_rst 0 => 0x3
    | Reg.cpu_pwroff _ => 0xe
    | Reg.cpu_pwr_clamp 0 0 => 0x00
    | Reg.cpu_pwr_clamp _ _ => 0xff
    | Reg.cluster_ctrl0 0 => 0xf
    | Reg.cluster_reset 0 => 0x00ff0001
    | _ => 0
  target_pc := fun _ => 0
  scr := 0x31
  cntp_tval := 0
  cntp_ctl := 0
  polls := 0
  trace := []

/-- A timer whose expiry flag is set at every third read. -/
def timer_every_third (i : Nat) : Nat := if i % 3 = 2 then 5 else 1

/-- A timer whose expiry flag is never set. -/
def timer_never (_ : Nat) : Nat := 1

/-! ## Bit-level lemmas -/

theorem testBit_four (i : Nat) : Nat.testBit 4 i = decide (i = 2) := by
  have h := @Nat.testBit_two_pow 2 i
  simpa [eq_comm] using h

theorem testBit_three (i : Nat) : Nat.testBit 3 i = decide (i < 2) := by
  have h := @Nat.testBit_two_pow_sub_one 2 i
  simpa using h

theorem testBit_one_eq (i : Nat) : Nat.testBit 1 i = decide (i = 0) := by
  have h := @Nat.testBit_two_pow 0 i
  simpa [eq_comm] using h

theorem testBit_all_ones (i : Nat) : Nat.testBit 0xFFFFFFFF i = decide (i < 32) := by
  have h := @Nat.testBit_two_pow_sub_one 32 i
  simpa using h

theorem testBit_BIT (k i : Nat) : (BIT k).testBit i = decide (k = i) := by
  unfold BIT
  rw [Nat.one_shiftLeft, Nat.testBit_two_pow]

/-- The bits of the word that `clrbits_le32` stores. -/
theorem testBit_clr (v m i : Nat) :
    ((v &&& (0xFFFFFFFF ^^^ m)) % 2 ^ 32).testBit i
      = (decide (i < 32) && (v.testBit i && !m.testBit i)) := by
  rw [Nat.testBit_mod_two_pow, Nat.testBit_and, Nat.testBit_xor, testBit_all_ones]
  by_cases h : i < 32 <;> simp [h]

/-- The bits of the word that `setbits_le32` stores. -/
theorem testBit_set (v m i : Nat) :
    ((v ||| m) % 2 ^ 32).testBit i = (decide (i < 32) && (v.testBit i || m.testBit i)) := by
  rw [Nat.testBit_mod_two_pow, Nat.testBit_or]

theorem testBit_eq_false_of_lt {v i : Nat} (hv : v < 2 ^ 32) (hi : 32 ≤ i) :
    v.testBit i = false :=
  Nat.testBit_lt_two_pow (lt_of_lt_of_le hv (Nat.pow_le_pow_right (by decide) hi))

/-- The dense ID in closed form: the core field plus four times bit 8. -/
theorem psci_get_cpu_id_eq (raw : Nat) :
    psci_get_cpu_id raw = (raw &&& 3) ||| (((raw >>> 8) &&& 1) <<< 2) := by
  unfold psci_get_cpu_id
  apply Nat.eq_of_testBit_eq
  intro i
  simp only [Nat.testBit_or, Nat.testBit_and, Nat.testBit_shiftRight, Nat.testBit_shiftLeft,
    testBit_four, testBit_three, testBit_one_eq]
  by_cases h : i = 2
  · subst h; simp
  · by_cases h2 : 2 ≤ i
    · have h3 : ¬ (i - 2 = 0) := by omega
      simp [h, h2, h3]
    · simp [h, h2]

theorem and_three_lt (x : Nat) : x &&& 3 < 4 :=
  Nat.and_lt_two_pow x (show 3 < 2 ^ 2 by decide)

theorem and_one_lt (x : Nat) : x &&& 1 < 2 :=
  Nat.and_lt_two_pow x (show 1 < 2 ^ 1 by decide)

/-! ## The dense CPU ID -/

/-- C4: for every value `raw` of the core-address register, the dense ID computed by the
instruction sequence of `psci_get_cpu_id`, `((raw >> 6) & 4) | (raw & 3)`, equals
`(raw & 3) | (((raw >> 8) & 1) << 2)`, which is the `cpuid` that `psci_cpu_on` computes from
the same value as `cpu | (cluster << 2)`; an address with cluster 1 and core 0 gives 4 and one
with cluster 0 and core 2 gives 2. -/
theorem psci_get_cpu_id_matches_cpu_on (raw : Nat) :
    psci_get_cpu_id raw = ((raw >>> 6) &&& 4) ||| (raw &&& 3)
    ∧ psci_get_cpu_id raw = (raw &&& 3) ||| (((raw >>> 8) &&& 1) <<< 2)
    ∧ psci_get_cpu_id raw = psci_cpu_on_cpuid raw
    ∧ psci_cpu_on_cpuid raw = psci_cpu_on_cpu raw ||| (psci_cpu_on_cluster raw <<< 2)
    ∧ psci_cpu_on_cluster raw = (raw >>> 8) &&& 1
    ∧ psci_cpu_on_cpu raw = raw &&& 3
    ∧ (psci_cpu_on_cluster raw = 1 ∧ psci_cpu_on_cpu raw = 0 → psci_get_cpu_id raw = 4)
    ∧ (psci_cpu_on_cluster raw = 0 ∧ psci_cpu_on_cpu raw = 2 → psci_get_cpu_id raw = 2) := by
  refine ⟨rfl, psci_get_cpu_id_eq raw, psci_get_cpu_id_eq raw, rfl, rfl, rfl, ?_, ?_⟩
  · rintro ⟨h1, h2⟩
    rw [psci_get_cpu_id_eq]
    unfold psci_cpu_on_cluster at h1
    unfold psci_cpu_on_cpu at h2
    rw [h1, h2]
    decide
  · rintro ⟨h1, h2⟩
    rw [psci_get_cpu_id_eq]
    unfold psci_cpu_on_cluster at h1
    unfold psci_cpu_on_cpu at h2
    rw [h1, h2]
    decide

/-- The two examples of C4 at the addresses 0x100 (cluster 1, core 0) and 0x002 (cluster 0,
core 2). -/
theorem psci_get_cpu_id_matches_cpu_on_witness :
    psci_get_cpu_id 0x100 = 4 ∧ psci_get_cpu_id 0x002 = 2 :=
  ⟨(psci_get_cpu_id_matches_cpu_on 0x100).2.2.2.2.2.2.1 ⟨by decide, by decide⟩,
   (psci_get_cpu_id_matches_cpu_on 0x002).2.2.2.2.2.2.2 ⟨by decide, by decide⟩⟩

/-- C9: for every value `raw` of the core-address register the dense ID lies in 0..7 and its
decomposition by `sunxi_cpu_set_power`, `cluster = (id >> 2) & 1` and `core = id & 3`, gives
back bit 8 of `raw` and the core field `raw & 3`; conversely every pair of a cluster in 0..1
and a core in 0..3 is recovered from the ID `core | (cluster << 2)`, and the eight pairs have
eight distinct IDs. -/
theorem dense_id_decomposes :
    (∀ raw : Nat,
      psci_get_cpu_id raw < 8
      ∧ sunxi_cpu_set_power_cluster (psci_get_cpu_id raw) = (raw >>> 8) &&& 1
      ∧ sunxi_cpu_set_power_core (psci_get_cpu_id raw) = raw &&& 3)
    ∧ (∀ (cluster : Fin 2) (core : Fin 4),
      core.val ||| (cluster.val <<< 2) < 8
      ∧ sunxi_cpu_set_power_cluster (core.val ||| (cluster.val <<< 2)) = cluster.val
      ∧ sunxi_cpu_set_power_core (core.val ||| (cluster.val <<< 2)) = core.val)
    ∧ (∀ (c1 c2 : Fin 2) (k1 k2 : Fin 4),
      k1.val ||| (c1.val <<< 2) = k2.val ||| (c2.val <<< 2) → c1 = c2 ∧ k1 = k2) := by
  refine ⟨?_, by decide, by decide⟩
  intro raw
  have hk := and_three_lt raw
  have hc := and_one_lt (raw >>> 8)
  rw [psci_get_cpu_id_eq]
  generalize raw &&& 3 = k at hk
  generalize (raw >>> 8) &&& 1 = c at hc
  have hc2 : c = 0 ∨ c = 1 := by omega
  have hk4 : k = 0 ∨ k = 1 ∨ k = 2 ∨ k = 3 := by omega
  rcases hc2 with rfl | rfl <;> rcases hk4 with rfl | rfl | rfl | rfl <;> decide

/-! ## The secure configuration register -/

/-- C5: `psci_arch_init` reads the secure configuration register and writes back the value
read with bit 0 cleared and every other bit unchanged, for every 32-bit value; all-ones becomes
0xFFFFFFFE, and a second call leaves the same register value as the first. -/
theorem psci_arch_init_clears_bit0 (s : Machine) (h : s.scr < 2 ^ 32) :
    (psci_arch_init s).trace
        = s.trace ++ [Event.read_scr s.scr, Event.write_scr (s.scr &&& 0xFFFFFFFE)]
    ∧ (psci_arch_init s).scr = s.scr &&& 0xFFFFFFFE
    ∧ (psci_arch_init s).scr.testBit 0 = false
    ∧ (∀ i, i ≠ 0 → (psci_arch_init s).scr.testBit i = s.scr.testBit i)
    ∧ (s.scr = 0xFFFFFFFF → (psci_arch_init s).scr = 0xFFFFFFFE)
    ∧ (psci_arch_init (psci_arch_init s)).scr = (psci_arch_init s).scr := by
  have hscr : ∀ m : Machine, (psci_arch_init m).scr = m.scr &&& 0xFFFFFFFE := by
    intro m
    have hlt : m.scr &&& 0xFFFFFFFE < 2 ^ 32 := Nat.and_lt_two_pow _ (by decide)
    show (m.scr &&& (0xFFFFFFFF ^^^ BIT 0)) % 2 ^ 32 = m.scr &&& 0xFFFFFFFE
    rw [show (0xFFFFFFFF ^^^ BIT 0) = 0xFFFFFFFE by decide]
    exact Nat.mod_eq_of_lt hlt
  have hbits : ∀ i, (psci_arch_init s).scr.testBit i
      = (decide (i < 32) && (s.scr.testBit i && !(BIT 0).testBit i)) := by
    intro i
    show ((s.scr &&& (0xFFFFFFFF ^^^ BIT 0)) % 2 ^ 32).testBit i = _
    exact testBit_clr _ _ _
  refine ⟨?_, hscr s, ?_, ?_, ?_, ?_⟩
  · have := hscr s
    show s.trace ++ [Event.read_scr s.scr]
        ++ [Event.write_scr ((s.scr &&& (0xFFFFFFFF ^^^ BIT 0)) % 2 ^ 32)] = _
    have e : (s.scr &&& (0xFFFFFFFF ^^^ BIT 0)) % 2 ^ 32 = s.scr &&& 0xFFFFFFFE := this
    rw [e]
    simp
  · rw [hbits, testBit_BIT]; simp
  · intro i hi
    rw [hbits, testBit_BIT]
    by_cases h32 : i < 32
    · have : ¬ (0 = i) := fun e => hi e.symm
      simp [h32, this]
    · rw [testBit_eq_false_of_lt h (by omega)]
      simp
  · intro hall
    rw [hscr, hall]
    decide
  · rw [hscr, hscr]
    rw [Nat.land_assoc, Nat.and_self]

/-- C5 at the all-ones value of the register. -/
theorem psci_arch_init_clears_bit0_witness :
    (psci_arch_init ⟨fun _ => 0, fun _ => 0, 0xFFFFFFFF, 0, 0, 0, []⟩).scr = 0xFFFFFFFE :=
  (psci_arch_init_clears_bit0 ⟨fun _ => 0, fun _ => 0, 0xFFFFFFFF, 0, 0, 0, []⟩
    (by decide)).2.2.2.2.1 rfl

/-! ## The busy-wait delay -/

/-- The polling loop ends at the first read that has the flag set. -/
theorem udelay_poll_returns (timer : Nat → Nat) (n : Nat) :
    ∀ (fuel : Nat) (s : Machine), FirstExpiry timer s.polls n → n < fuel →
      udelay_poll timer fuel s
        = some { s with
            polls := s.polls + (n + 1)
            trace := s.trace ++ poll_events timer s.polls (n + 1) } := by
  induction n with
  | zero =>
    intro fuel s h hf
    obtain ⟨f, rfl⟩ : ∃ f, fuel = f + 1 := ⟨fuel - 1, by omega⟩
    have h0 : timer s.polls &&& BIT 2 ≠ 0 := by simpa using h.1
    simp [udelay_poll, isb, cp15_read_cntp_ctl, h0, poll_events]
  | succ n ih =>
    intro fuel s h hf
    obtain ⟨f, rfl⟩ : ∃ f, fuel = f + 1 := ⟨fuel - 1, by omega⟩
    have h0 : timer s.polls &&& BIT 2 = 0 := by simpa using h.2 0 (by omega)
    have hnext : FirstExpiry timer (s.polls + 1) n := by
      refine ⟨?_, ?_⟩
      · have := h.1
        rwa [show s.polls + (n + 1) = s.polls + 1 + n by omega] at this
      · intro j hj
        have := h.2 (j + 1) (by omega)
        rwa [show s.polls + (j + 1) = s.polls + 1 + j by omega] at this
    rw [udelay_poll]
    simp only [isb, cp15_read_cntp_ctl, h0, if_true]
    rw [ih f _ hnext (by omega)]
    simp [poll_events, Nat.add_assoc, Nat.add_comm 1]

/-- The polling loop has not ended while the flag has not been read set. -/
theorem udelay_poll_none (timer : Nat → Nat) (fuel : Nat) :
    ∀ s : Machine, (∀ j, j < fuel → timer (s.polls + j) &&& BIT 2 = 0) →
      udelay_poll timer fuel s = none := by
  induction fuel with
  | zero => intro s _; rfl
  | succ f ih =>
    intro s h
    have h0 : timer s.polls &&& BIT 2 = 0 := by simpa using h 0 (by omega)
    rw [udelay_poll]
    simp only [isb, cp15_read_cntp_ctl, h0, if_true]
    apply ih
    intro j hj
    have := h (j + 1) (by omega)
    rwa [show s.polls + (j + 1) = s.polls + 1 + j by omega] at this

/-- When the polling loop ends, a read with the flag set has been made. -/
theorem udelay_poll_some (timer : Nat → Nat) (fuel : Nat) (s s' : Machine)
    (h : udelay_poll timer fuel s = some s') :
    ∃ n, n < fuel ∧ FirstExpiry timer s.polls n := by
  by_contra hno
  have hall : ∀ j, j < fuel → timer (s.polls + j) &&& BIT 2 = 0 := by
    intro j
    induction j using Nat.strong_induction_on with
    | _ j ihj =>
      intro hj
      by_contra hset
      exact hno ⟨j, hj, hset, fun i hi => ihj i hi (by omega)⟩
  rw [udelay_poll_none timer fuel s hall] at h
  exact Option.noConfusion h

/-- A delay returns once the flag has been read set, and leaves `udelay_done`. -/
theorem udelay_sec_returns (P : Platform) (timer : Nat → Nat) (fuel us n : Nat) (s : Machine)
    (h : FirstExpiry timer s.polls n) (hf : n < fuel) :
    __udelay_sec P timer fuel us s = some (udelay_done P timer us n s) := by
  unfold __udelay_sec
  simp only [isb]
  rw [udelay_poll_returns timer n fuel
    (cp15_write_cntp_ctl 3 (cp15_write_cntp_tval (ONE_US P * us % 2 ^ 32) s)) h hf]
  simp [udelay_done, udelay_events, cp15_write_cntp_ctl, cp15_write_cntp_tval]

/-- A delay has not returned while the flag has not been read set. -/
theorem udelay_sec_none (P : Platform) (timer : Nat → Nat) (fuel us : Nat) (s : Machine)
    (h : ∀ j, j < fuel → timer (s.polls + j) &&& BIT 2 = 0) :
    __udelay_sec P timer fuel us s = none := by
  unfold __udelay_sec
  simp only [isb]
  rw [udelay_poll_none timer fuel
    (cp15_write_cntp_ctl 3 (cp15_write_cntp_tval (ONE_US P * us % 2 ^ 32) s)) h]

/-- A delay that has returned has read the flag set, and has left `udelay_done`. -/
theorem udelay_sec_some (P : Platform) (timer : Nat → Nat) (fuel us : Nat) (s s' : Machine)
    (h : __udelay_sec P timer fuel us s = some s') :
    ∃ n, n < fuel ∧ FirstExpiry timer s.polls n ∧ s' = udelay_done P timer us n s := by
  by_cases hp : ∃ n, n < fuel ∧ FirstExpiry timer s.polls n
  · obtain ⟨n, hn, hfirst⟩ := hp
    refine ⟨n, hn, hfirst, ?_⟩
    rw [udelay_sec_returns P timer fuel us n s hfirst hn] at h
    exact (Option.some.inj h).symm
  · exfalso
    have hall : ∀ j, j < fuel → timer (s.polls + j) &&& BIT 2 = 0 := by
      intro j
      induction j using Nat.strong_induction_on with
      | _ j ihj =>
        intro hj
        by_contra hset
        exact hp ⟨j, hj, hset, fun i hi => ihj i hi (by omega)⟩
    rw [udelay_sec_none P timer fuel us s hall] at h
    exact Option.noConfusion h

/-- C7, amended: when the delay ends, the value that `__udelay_sec` has programmed into the
countdown register is `us * (timer_frequency / 1_000_000)` reduced modulo `2 ^ 32`, the
division being integer division; it is `us * (timer_frequency / 1_000_000)` itself whenever
that product is below `2 ^ 32`, and with a frequency of 1 MHz and `us = 10` it is 10 ticks.
The write of the countdown value is the first access of the delay. -/
theorem udelay_sec_countdown_value (P : Platform) (timer : Nat → Nat) (fuel us n : Nat)
    (s : Machine) (h : FirstExpiry timer s.polls n) (hf : n < fuel) :
    ∃ s', __udelay_sec P timer fuel us s = some s'
      ∧ s'.cntp_tval = (us * (P.CONFIG_TIMER_CLK_FREQ / 1000000)) % 2 ^ 32
      ∧ (∃ rest, s'.trace = s.trace
          ++ Event.write_cntp_tval ((us * (P.CONFIG_TIMER_CLK_FREQ / 1000000)) % 2 ^ 32) :: rest
          ∧ ∀ v, Event.write_cntp_tval v ∉ rest)
      ∧ (us * (P.CONFIG_TIMER_CLK_FREQ / 1000000) < 2 ^ 32 →
          s'.cntp_tval = us * (P.CONFIG_TIMER_CLK_FREQ / 1000000))
      ∧ (P.CONFIG_TIMER_CLK_FREQ = 1000000 → us = 10 → s'.cntp_tval = 10) := by
  have hval : (udelay_done P timer us n s).cntp_tval
      = (us * (P.CONFIG_TIMER_CLK_FREQ / 1000000)) % 2 ^ 32 := by
    show (ONE_US P * us) % 2 ^ 32 = _
    rw [ONE_US, Nat.mul_comm]
  refine ⟨udelay_done P timer us n s, udelay_sec_returns P timer fuel us n s h hf, hval,
    ?_, ?_, ?_⟩
  · refine ⟨Event.write_cntp_ctl 3 :: (poll_events timer s.polls (n + 1)
      ++ [Event.write_cntp_ctl 0]), ?_, ?_⟩
    · show s.trace ++ udelay_events P timer s.polls n us = _
      rw [udelay_events, ONE_US, Nat.mul_comm]
      simp
    · intro v hv
      have hpoll : ∀ m pos, Event.write_cntp_tval v ∉ poll_events timer pos m := by
        intro m
        induction m with
        | zero => intro pos; simp [poll_events]
        | succ m ih => intro pos; simp [poll_events, ih]
      simp [hpoll] at hv
  · intro hlt
    rw [hval, Nat.mod_eq_of_lt hlt]
  · intro hfreq hus
    rw [hval, hfreq, hus]
    decide

/-- C7 at a 1 MHz timer and `us = 10`: the countdown register is programmed with 10. -/
theorem udelay_sec_countdown_value_witness :
    ∃ s', __udelay_sec sun9i_1mhz timer_every_third 3 10 boot_machine = some s'
      ∧ s'.cntp_tval = 10 := by
  obtain ⟨s', hs, _, _, _, h10⟩ :=
    udelay_sec_countdown_value sun9i_1mhz timer_every_third 3 10 2 boot_machine
      (by decide) (by decide)
  exact ⟨s', hs, h10 rfl rfl⟩

/-- C7 as stated fails: with the 24 MHz timer and `us = 200000000` the countdown register is
programmed with 505032704, while `us * (timer_frequency / 1_000_000)` is 4800000000. -/
theorem udelay_sec_countdown_wraps :
    (__udelay_sec sun9i timer_every_third 3 200000000 boot_machine).map Machine.cntp_tval
        = some 505032704
    ∧ 200000000 * (sun9i.CONFIG_TIMER_CLK_FREQ / 1000000) = 4800000000
    ∧ (__udelay_sec sun9i timer_every_third 3 200000000 boot_machine).map Machine.cntp_tval
        ≠ some (200000000 * (sun9i.CONFIG_TIMER_CLK_FREQ / 1000000)) := by
  refine ⟨?_, ?_, ?_⟩
  · decide
  · decide
  · decide

/-- C8: over a simulated timer, `__udelay_sec` writes the countdown value, writes 3 to the
control register, reads the control register until the first read that has bit 2 set, writes
0 to the control register as its last access and returns; it has made exactly the reads up to
that first one. It does not return before a read has had the flag set, and when no read ever
has it set, it has not returned after any number of polls. -/
theorem udelay_sec_polls_until_expiry (P : Platform) (timer : Nat → Nat) (us : Nat)
    (s : Machine) :
    (∀ n fuel, FirstExpiry timer s.polls n → n < fuel →
      ∃ s', __udelay_sec P timer fuel us s = some s'
        ∧ s'.trace = s.trace
            ++ [Event.write_cntp_tval ((ONE_US P * us) % 2 ^ 32), Event.write_cntp_ctl 3]
            ++ poll_events timer s.polls (n + 1) ++ [Event.write_cntp_ctl 0]
        ∧ s'.polls = s.polls + (n + 1)
        ∧ s'.cntp_ctl = 0
        ∧ s'.regs = s.regs ∧ s'.target_pc = s.target_pc ∧ s'.scr = s.scr)
    ∧ (∀ fuel s', __udelay_sec P timer fuel us s = some s' →
        ∃ n, n < fuel ∧ FirstExpiry timer s.polls n ∧ s'.polls = s.polls + (n + 1))
    ∧ (∀ fuel, (∀ j, j < fuel → timer (s.polls + j) &&& BIT 2 = 0) →
        __udelay_sec P timer fuel us s = none)
    ∧ ((∀ j, timer (s.polls + j) &&& BIT 2 = 0) →
        ∀ fuel, __udelay_sec P timer fuel us s = none) := by
  refine ⟨?_, ?_, ?_, ?_⟩
  · intro n fuel h hf
    refine ⟨udelay_done P timer us n s, udelay_sec_returns P timer fuel us n s h hf,
      ?_, rfl, rfl, rfl, rfl, rfl⟩
    show s.trace ++ udelay_events P timer s.polls n us = _
    simp [udelay_events]
  · intro fuel s' h
    obtain ⟨n, hn, hfirst, hs⟩ := udelay_sec_some P timer fuel us s s' h
    exact ⟨n, hn, hfirst, by rw [hs]; rfl⟩
  · intro fuel h
    exact udelay_sec_none P timer fuel us s h
  · intro h fuel
    exact udelay_sec_none P timer fuel us s (fun j _ => h j)

/-- C8 on two timers: with the flag set at the third read the delay makes three reads and
returns, and with a flag that is never set it has not returned after 1000 polls. -/
theorem udelay_sec_polls_until_expiry_witness :
    (∃ s', __udelay_sec sun9i_1mhz timer_every_third 3 10 boot_machine = some s'
      ∧ s'.trace = [Event.write_cntp_tval 10, Event.write_cntp_ctl 3, Event.read_cntp_ctl 1,
          Event.read_cntp_ctl 1, Event.read_cntp_ctl 5, Event.write_cntp_ctl 0])
    ∧ __udelay_sec sun9i_1mhz timer_every_third 2 10 boot_machine = none
    ∧ __udelay_sec sun9i_1mhz timer_never 1000 10 boot_machine = none := by
  have hthm := udelay_sec_polls_until_expiry sun9i_1mhz
  refine ⟨?_, ?_, ?_⟩
  · obtain ⟨s', hs, htr, _⟩ := (hthm timer_every_third 10 boot_machine).1 2 3
      (by decide) (by decide)
    exact ⟨s', hs, by rw [htr]; rfl⟩
  · exact (hthm timer_every_third 10 boot_machine).2.2.1 2 (by decide)
  · exact (hthm timer_never 10 boot_machine).2.2.2
      (fun _ => show (1 : Nat) &&& BIT 2 = 0 by decide) 1000

/-! ## Effect of the primitive accesses on each component of the machine -/

@[simp] theorem writel_regs (v : Nat) (r x : Reg) (s : Machine) :
    (writel v r s).regs x = if x = r then v % 2 ^ 32 else s.regs x := rfl

@[simp] theorem writel_trace (v : Nat) (r : Reg) (s : Machine) :
    (writel v r s).trace = s.trace ++ [Event.writel (v % 2 ^ 32) r] := rfl

@[simp] theorem writel_polls (v : Nat) (r : Reg) (s : Machine) :
    (writel v r s).polls = s.polls := rfl

@[simp] theorem writel_target_pc (v : Nat) (r : Reg) (s : Machine) :
    (writel v r s).target_pc = s.target_pc := rfl

@[simp] theorem clrbits_regs (r x : Reg) (m : Nat) (s : Machine) :
    (clrbits_le32 r m s).regs x = if x = r then clr32 (s.regs r) m else s.regs x := rfl

@[simp] theorem clrbits_trace (r : Reg) (m : Nat) (s : Machine) :
    (clrbits_le32 r m s).trace = s.trace ++ clear_events r (s.regs r) m := by
  simp [clrbits_le32, readl, writel, clear_events, clr32]

@[simp] theorem clrbits_polls (r : Reg) (m : Nat) (s : Machine) :
    (clrbits_le32 r m s).polls = s.polls := rfl

@[simp] theorem clrbits_target_pc (r : Reg) (m : Nat) (s : Machine) :
    (clrbits_le32 r m s).target_pc = s.target_pc := rfl

@[simp] theorem setbits_regs (r x : Reg) (m : Nat) (s : Machine) :
    (setbits_le32 r m s).regs x = if x = r then set32 (s.regs r) m else s.regs x := rfl

@[simp] theorem setbits_trace (r : Reg) (m : Nat) (s : Machine) :
    (setbits_le32 r m s).trace = s.trace ++ set_events r (s.regs r) m := by
  simp [setbits_le32, readl, writel, set_events, set32]

@[simp] theorem setbits_polls (r : Reg) (m : Nat) (s : Machine) :
    (setbits_le32 r m s).polls = s.polls := rfl

@[simp] theorem setbits_target_pc (r : Reg) (m : Nat) (s : Machine) :
    (setbits_le32 r m s).target_pc = s.target_pc := rfl

@[simp] theorem udelay_done_regs (P : Platform) (timer : Nat → Nat) (us n : Nat) (s : Machine) :
    (udelay_done P timer us n s).regs = s.regs := rfl

@[simp] theorem udelay_done_trace (P : Platform) (timer : Nat → Nat) (us n : Nat)
    (s : Machine) :
    (udelay_done P timer us n s).trace = s.trace ++ udelay_events P timer s.polls n us := rfl

@[simp] theorem udelay_done_polls (P : Platform) (timer : Nat → Nat) (us n : Nat)
    (s : Machine) :
    (udelay_done P timer us n s).polls = s.polls + (n + 1) := rfl

@[simp] theorem udelay_done_target_pc (P : Platform) (timer : Nat → Nat) (us n : Nat)
    (s : Machine) :
    (udelay_done P timer us n s).target_pc = s.target_pc := rfl

@[simp] theorem save_target_pc_regs (cpuid pc : Nat) (s : Machine) :
    (psci_save_target_pc cpuid pc s).regs = s.regs := rfl

@[simp] theorem save_target_pc_trace (cpuid pc : Nat) (s : Machine) :
    (psci_save_target_pc cpuid pc s).trace = s.trace ++ [Event.save_target_pc cpuid pc] := rfl

@[simp] theorem save_target_pc_polls (cpuid pc : Nat) (s : Machine) :
    (psci_save_target_pc cpuid pc s).polls = s.polls := rfl

@[simp] theorem save_target_pc_target_pc (cpuid pc c : Nat) (s : Machine) :
    (psci_save_target_pc cpuid pc s).target_pc c = if c = cpuid then pc else s.target_pc c :=
  rfl

/-! ## The registers written by a list of events -/

@[simp] theorem written_nil : written [] = [] := rfl

@[simp] theorem written_append (a b : List Event) : written (a ++ b) = written a ++ written b := by
  simp [written, List.filterMap_append]

@[simp] theorem written_cons_writel (v : Nat) (r : Reg) (l : List Event) :
    written (Event.writel v r :: l) = r :: written l := by
  simp [written, List.filterMap_cons]

@[simp] theorem written_cons_save (c pc : Nat) (l : List Event) :
    written (Event.save_target_pc c pc :: l) = written l := by
  simp [written, List.filterMap_cons]

@[simp] theorem written_poll_events (timer : Nat → Nat) (n pos : Nat) :
    written (poll_events timer pos n) = [] := by
  induction n generalizing pos with
  | zero => rfl
  | succ n ih =>
    rw [poll_events]
    simpa [written, List.filterMap_cons] using ih (pos + 1)

@[simp] theorem written_udelay_events (P : Platform) (timer : Nat → Nat) (pos n us : Nat) :
    written (udelay_events P timer pos n us) = [] := by
  have h := written_poll_events timer (n + 1) pos
  simp only [udelay_events, written_append, h]
  simp [written, List.filterMap_cons]

@[simp] theorem written_clear_events (r : Reg) (v m : Nat) :
    written (clear_events r v m) = [r] := by
  simp [written, clear_events, List.filterMap_cons]

@[simp] theorem written_set_events (r : Reg) (v m : Nat) :
    written (set_events r v m) = [r] := by
  simp [written, set_events, List.filterMap_cons]

/-! ## The power switch -/

/-- The power-off path, when its delay sees the flag at its read number `n`. -/
theorem power_switch_off_returns (P : Platform) (timer : Nat → Nat) (fuel : Nat)
    (clamp pwroff : Reg) (c n : Nat) (s : Machine)
    (h : FirstExpiry timer s.polls n) (hf : n < fuel) :
    sunxi_core_power_switch P timer fuel clamp pwroff false c s
      = some (clamp_set clamp (udelay_done P timer 20 n (setbits_le32 pwroff (BIT c) s))) := by
  unfold sunxi_core_power_switch
  simp only [Bool.false_eq_true, if_false, bind, pure]
  rw [udelay_sec_returns P timer fuel 20 n (setbits_le32 pwroff (BIT c) s) h hf]
  rfl

/-- The power-off path returns only when its delay has seen the flag. -/
theorem power_switch_off_some (P : Platform) (timer : Nat → Nat) (fuel : Nat)
    (clamp pwroff : Reg) (c : Nat) (s s' : Machine)
    (h : sunxi_core_power_switch P timer fuel clamp pwroff false c s = some s') :
    ∃ n, n < fuel ∧ FirstExpiry timer s.polls n
      ∧ s' = clamp_set clamp (udelay_done P timer 20 n (setbits_le32 pwroff (BIT c) s)) := by
  unfold sunxi_core_power_switch at h
  simp only [Bool.false_eq_true, if_false, bind, pure, Option.bind_eq_some] at h
  obtain ⟨a, ha, hs⟩ := h
  obtain ⟨n, hn, e, rfl⟩ := udelay_sec_some P timer fuel 20 _ _ ha
  exact ⟨n, hn, e, (Option.some.inj hs).symm⟩

/-- C6: for every clamp register, gating register and core index `c`,
`sunxi_core_power_switch` with `on = false` performs exactly these accesses in this order:
it sets bit `c` of the gating register by a read-modify-write that leaves the other bits as
they were, delays 20 microseconds, then writes 0xff to the clamp register; the registers
written are the gating register and then the clamp register, once each, and no other register
changes. The call returns as soon as the delay has read the expiry flag set, and every call
that returns has made these accesses. -/
theorem power_switch_off_sequence (P : Platform) (timer : Nat → Nat) (fuel : Nat)
    (clamp pwroff : Reg) (c : Nat) (s : Machine) :
    (∀ n, FirstExpiry timer s.polls n → n < fuel →
      ∃ s', sunxi_core_power_switch P timer fuel clamp pwroff false c s = some s'
        ∧ s'.trace = s.trace
            ++ [Event.readl pwroff (s.regs pwroff),
                Event.writel (set32 (s.regs pwroff) (BIT c)) pwroff]
            ++ udelay_events P timer s.polls n 20
            ++ [Event.writel 0xff clamp])
    ∧ (∀ s', sunxi_core_power_switch P timer fuel clamp pwroff false c s = some s' →
      ∃ n evs, FirstExpiry timer s.polls n
        ∧ evs = [Event.readl pwroff (s.regs pwroff),
                Event.writel (set32 (s.regs pwroff) (BIT c)) pwroff]
            ++ udelay_events P timer s.polls n 20
            ++ [Event.writel 0xff clamp]
        ∧ s'.trace = s.trace ++ evs
        ∧ written evs = [pwroff, clamp]
        ∧ s'.regs clamp = 0xff
        ∧ (clamp ≠ pwroff → s'.regs pwroff = set32 (s.regs pwroff) (BIT c))
        ∧ (∀ r, r ≠ clamp → r ≠ pwroff → s'.regs r = s.regs r))
    ∧ (c < 32 → (set32 (s.regs pwroff) (BIT c)).testBit c = true)
    ∧ (∀ i, i < 32 → i ≠ c →
        (set32 (s.regs pwroff) (BIT c)).testBit i = (s.regs pwroff).testBit i) := by
  refine ⟨?_, ?_, ?_, ?_⟩
  · intro n h hf
    refine ⟨_, power_switch_off_returns P timer fuel clamp pwroff c n s h hf, ?_⟩
    simp [clamp_set, set_events]
  · intro s' hret
    obtain ⟨n, _, h, rfl⟩ := power_switch_off_some P timer fuel clamp pwroff c s s' hret
    refine ⟨n, _, h, rfl, ?_, ?_, ?_, ?_, ?_⟩
    · simp [clamp_set, set_events]
    · rw [written_append, written_append, written_udelay_events]
      simp [written, List.filterMap_cons]
    · simp [clamp_set]
    · intro hne
      have : ¬ (pwroff = clamp) := fun e => hne e.symm
      simp [clamp_set, this]
    · intro r h1 h2
      simp [clamp_set, h1, h2]
  · intro hc
    rw [set32, testBit_set, testBit_BIT]
    simp [hc]
  · intro i hi hne
    rw [set32, testBit_set, testBit_BIT]
    have : ¬ (c = i) := fun e => hne e.symm
    simp [hi, this]

/-- C6 on the boot machine: gating and clamping core 0 of cluster 0. -/
theorem power_switch_off_sequence_witness :
    ∃ s', sunxi_core_power_switch sun9i timer_every_third 3 (Reg.cpu_pwr_clamp 0 0)
        (Reg.cpu_pwroff 0) false 0 boot_machine = some s'
      ∧ s'.trace = [Event.readl (Reg.cpu_pwroff 0) 0xe, Event.writel 0xf (Reg.cpu_pwroff 0),
          Event.write_cntp_tval 480, Event.write_cntp_ctl 3, Event.read_cntp_ctl 1,
          Event.read_cntp_ctl 1, Event.read_cntp_ctl 5, Event.write_cntp_ctl 0,
          Event.writel 0xff (Reg.cpu_pwr_clamp 0 0)]
      ∧ s'.regs (Reg.cpu_pwr_clamp 0 0) = 0xff
      ∧ s'.regs (Reg.cpu_pwroff 0) = 0xf := by
  have hthm := power_switch_off_sequence sun9i timer_every_third 3 (Reg.cpu_pwr_clamp 0 0)
    (Reg.cpu_pwroff 0) 0 boot_machine
  obtain ⟨s', hs, htr⟩ := hthm.1 2 (by decide) (by decide)
  obtain ⟨_, _, _, _, _, _, hclamp, hgate, _⟩ := hthm.2.1 s' hs
  refine ⟨s', hs, ?_, hclamp, ?_⟩
  · rw [htr]
    rfl
  · rw [hgate (by decide)]
    rfl

/-! ## The power-on sequence -/

theorem clamp_release_returns (P : Platform) (timer : Nat → Nat) (fuel : Nat) (clamp : Reg)
    (n1 n2 n3 n4 : Nat) (s : Machine)
    (h1 : FirstExpiry timer s.polls n1)
    (h2 : FirstExpiry timer (s.polls + (n1 + 1)) n2)
    (h3 : FirstExpiry timer (s.polls + (n1 + 1) + (n2 + 1)) n3)
    (h4 : FirstExpiry timer (s.polls + (n1 + 1) + (n2 + 1) + (n3 + 1)) n4)
    (hf1 : n1 < fuel) (hf2 : n2 < fuel) (hf3 : n3 < fuel) (hf4 : n4 < fuel) :
    clamp_release P timer fuel clamp s
      = some (clamp_release_done P timer clamp n1 n2 n3 n4 s) := by
  unfold clamp_release
  simp only [bind, pure]
  rw [udelay_sec_returns P timer fuel 10 n1 (writel 0xff clamp s) h1 hf1]
  simp only [Option.bind]
  rw [udelay_sec_returns P timer fuel 10 n2 _ h2 hf2]
  simp only [Option.bind]
  rw [udelay_sec_returns P timer fuel 10 n3 _ h3 hf3]
  simp only [Option.bind]
  rw [udelay_sec_returns P timer fuel 10 n4 _ h4 hf4]
  rfl

theorem set_power_cluster_of_lt (k : Nat) (hk : k < 4) : sunxi_cpu_set_power_cluster k = 0 := by
  interval_cases k <;> rfl

theorem set_power_core_of_lt (k : Nat) (hk : k < 4) : sunxi_cpu_set_power_core k = k := by
  interval_cases k <;> rfl

theorem set_power_on_returns (P : Platform) (timer : Nat → Nat) (fuel k : Nat)
    (n1 n2 n3 n4 n5 : Nat) (s : Machine) (hk : k < 4)
    (h : DelaysExpire timer s.polls n1 n2 n3 n4 n5)
    (hf : n1 < fuel ∧ n2 < fuel ∧ n3 < fuel ∧ n4 < fuel ∧ n5 < fuel) :
    sunxi_cpu_set_power P timer fuel k true s
      = some (clrbits_le32 (Reg.cpu_pwroff 0) (BIT k)
          (udelay_done P timer 20 n5
            (clamp_release_done P timer (Reg.cpu_pwr_clamp 0 k) n1 n2 n3 n4 s))) := by
  obtain ⟨h1, h2, h3, h4, h5⟩ := h
  obtain ⟨hf1, hf2, hf3, hf4, hf5⟩ := hf
  unfold sunxi_cpu_set_power sunxi_core_power_switch
  simp only [set_power_cluster_of_lt k hk, set_power_core_of_lt k hk, if_true, bind, pure]
  rw [clamp_release_returns P timer fuel _ n1 n2 n3 n4 s h1 h2 h3 h4 hf1 hf2 hf3 hf4]
  simp only [Option.bind]
  rw [udelay_sec_returns P timer fuel 20 n5 _ h5 hf5]

/-- A power-on of core `k` of cluster 0 whose delays all end returns SUCCESS and leaves
`cpu_on_done`. -/
theorem psci_cpu_on_returns (P : Platform) (timer : Nat → Nat) (fuel unused mpidr pc : Nat)
    (n1 n2 n3 n4 n5 : Nat) (s : Machine)
    (hc : psci_cpu_on_cluster mpidr = 0)
    (h : DelaysExpire timer s.polls n1 n2 n3 n4 n5)
    (hf : n1 < fuel ∧ n2 < fuel ∧ n3 < fuel ∧ n4 < fuel ∧ n5 < fuel) :
    psci_cpu_on P timer fuel unused mpidr pc s
      = some (ARM_PSCI_RET_SUCCESS,
          cpu_on_done P timer (psci_cpu_on_cpu mpidr) pc n1 n2 n3 n4 n5 s) := by
  have hk : psci_cpu_on_cpu mpidr < 4 := and_three_lt mpidr
  have hid : psci_cpu_on_cpuid mpidr = psci_cpu_on_cpu mpidr := by
    unfold psci_cpu_on_cpuid
    rw [hc]
    simp
  unfold psci_cpu_on
  simp only [hc, hid, gt_iff_lt, lt_irrefl, if_false, if_true, bind, pure]
  rw [set_power_on_returns P timer fuel (psci_cpu_on_cpu mpidr) n1 n2 n3 n4 n5
    (clrbits_le32 (Reg.cluster_reset 0) (P.CPUCFG_CX_RST_ETM (psci_cpu_on_cpu mpidr))
      (clrbits_le32 (Reg.cluster_reset 0) (P.CPUCFG_CX_RST_DBG (psci_cpu_on_cpu mpidr))
        (clrbits_le32 (Reg.cluster_ctrl0 0)
          (P.CPUCFG_CX_CTRL0_L1_RST_DISABLE (psci_cpu_on_cpu mpidr))
          (clrbits_le32 (Reg.cpu_rst 0) (BIT (psci_cpu_on_cpu mpidr))
            (writel P.psci_cpu_entry Reg.cpu_soft_entry
              (psci_save_target_pc (psci_cpu_on_cpu mpidr) pc s))))))
    hk h hf]
  rfl

theorem clamp_release_some (P : Platform) (timer : Nat → Nat) (fuel : Nat) (clamp : Reg)
    (s s' : Machine) (h : clamp_release P timer fuel clamp s = some s') :
    ∃ n1 n2 n3 n4,
      FirstExpiry timer s.polls n1
      ∧ FirstExpiry timer (s.polls + (n1 + 1)) n2
      ∧ FirstExpiry timer (s.polls + (n1 + 1) + (n2 + 1)) n3
      ∧ FirstExpiry timer (s.polls + (n1 + 1) + (n2 + 1) + (n3 + 1)) n4
      ∧ (n1 < fuel ∧ n2 < fuel ∧ n3 < fuel ∧ n4 < fuel)
      ∧ s' = clamp_release_done P timer clamp n1 n2 n3 n4 s := by
  unfold clamp_release at h
  simp only [bind, pure, Option.bind_eq_some] at h
  obtain ⟨a1, h1, a2, h2, a3, h3, a4, h4, hs⟩ := h
  obtain ⟨n1, hn1, e1, rfl⟩ := udelay_sec_some P timer fuel 10 _ _ h1
  obtain ⟨n2, hn2, e2, rfl⟩ := udelay_sec_some P timer fuel 10 _ _ h2
  obtain ⟨n3, hn3, e3, rfl⟩ := udelay_sec_some P timer fuel 10 _ _ h3
  obtain ⟨n4, hn4, e4, rfl⟩ := udelay_sec_some P timer fuel 10 _ _ h4
  exact ⟨n1, n2, n3, n4, e1, e2, e3, e4, ⟨hn1, hn2, hn3, hn4⟩, (Option.some.inj hs).symm⟩

/-- A power-on of core `k` of cluster 0 that returns has seen its five delays end. -/
theorem psci_cpu_on_some_expires (P : Platform) (timer : Nat → Nat)
    (fuel unused mpidr pc : Nat) (s s' : Machine) (r : Int)
    (hc : psci_cpu_on_cluster mpidr = 0)
    (h : psci_cpu_on P timer fuel unused mpidr pc s = some (r, s')) :
    ∃ n1 n2 n3 n4 n5, DelaysExpire timer s.polls n1 n2 n3 n4 n5
      ∧ (n1 < fuel ∧ n2 < fuel ∧ n3 < fuel ∧ n4 < fuel ∧ n5 < fuel) := by
  have hk : psci_cpu_on_cpu mpidr < 4 := and_three_lt mpidr
  unfold psci_cpu_on at h
  simp only [hc, gt_iff_lt, lt_irrefl, if_false, if_true, bind, pure,
    Option.bind_eq_some] at h
  obtain ⟨a, ha, -⟩ := h
  unfold sunxi_cpu_set_power sunxi_core_power_switch at ha
  simp only [set_power_cluster_of_lt _ hk, set_power_core_of_lt _ hk, if_true, bind, pure,
    Option.bind_eq_some] at ha
  obtain ⟨b, hb, c, hc5, -⟩ := ha
  obtain ⟨n1, n2, n3, n4, e1, e2, e3, e4, ⟨f1, f2, f3, f4⟩, rfl⟩ :=
    clamp_release_some P timer fuel _ _ _ hb
  obtain ⟨n5, f5, e5, -⟩ := udelay_sec_some P timer fuel 20 _ _ hc5
  exact ⟨n1, n2, n3, n4, n5, ⟨e1, e2, e3, e4, e5⟩, f1, f2, f3, f4, f5⟩

/-- C1: for every core address whose cluster is 0 and whose core field is `k` and every
`pc`, `psci_cpu_on` records `pc` in the target-PC table under cpuid `k` and then performs
exactly the accesses of `cpu_on_events`, in that order and no others: the write of the entry
routine to cpu_soft_entry, the clearing of bit `k` of cpu_rst[0], of the L1-reset-disable bit
in cluster[0].ctrl0, of the debug bit and of the ETM bit in cluster_reset[0], the writes of
0xff, 0xfe, 0xf8, 0xf0, 0x00 to cpu_pwr_clamp[0][k] with a delay of 10 microseconds between
consecutive writes, a delay of 20 microseconds, the clearing of bit `k` of cpu_pwroff[0], the
setting of bit `k` of cpu_rst[0], of the core-reset bit, of the ETM bit and of the debug bit
in cluster_reset[0]; and it returns SUCCESS. The call returns as soon as each of its five
delays has read the expiry flag set, and every call that returns has done so. -/
theorem psci_cpu_on_sequence (P : Platform) (timer : Nat → Nat) (fuel unused mpidr pc k : Nat)
    (s : Machine)
    (hc : psci_cpu_on_cluster mpidr = 0) (hk : psci_cpu_on_cpu mpidr = k) :
    k < 4
    ∧ (∀ n1 n2 n3 n4 n5, DelaysExpire timer s.polls n1 n2 n3 n4 n5 →
        n1 < fuel ∧ n2 < fuel ∧ n3 < fuel ∧ n4 < fuel ∧ n5 < fuel →
        ∃ s', psci_cpu_on P timer fuel unused mpidr pc s = some (ARM_PSCI_RET_SUCCESS, s')
          ∧ s'.target_pc k = pc
          ∧ (∀ c, c ≠ k → s'.target_pc c = s.target_pc c)
          ∧ s'.trace = s.trace ++ cpu_on_events P timer k pc n1 n2 n3 n4 n5 s)
    ∧ (∀ r s', psci_cpu_on P timer fuel unused mpidr pc s = some (r, s') →
        r = ARM_PSCI_RET_SUCCESS
        ∧ ∃ n1 n2 n3 n4 n5, DelaysExpire timer s.polls n1 n2 n3 n4 n5
          ∧ s'.target_pc k = pc
          ∧ s'.trace = s.trace ++ cpu_on_events P timer k pc n1 n2 n3 n4 n5 s) := by
  subst hk
  have hdone : ∀ n1 n2 n3 n4 n5,
      (cpu_on_done P timer (psci_cpu_on_cpu mpidr) pc n1 n2 n3 n4 n5 s).target_pc
          (psci_cpu_on_cpu mpidr) = pc
      ∧ (∀ c, c ≠ psci_cpu_on_cpu mpidr →
          (cpu_on_done P timer (psci_cpu_on_cpu mpidr) pc n1 n2 n3 n4 n5 s).target_pc c
            = s.target_pc c)
      ∧ (cpu_on_done P timer (psci_cpu_on_cpu mpidr) pc n1 n2 n3 n4 n5 s).trace
          = s.trace ++ cpu_on_events P timer (psci_cpu_on_cpu mpidr) pc n1 n2 n3 n4 n5 s := by
    intro n1 n2 n3 n4 n5
    refine ⟨?_, ?_, ?_⟩
    · simp [cpu_on_done, clamp_release_done]
    · intro c hne
      simp [cpu_on_done, clamp_release_done, hne]
    · simp [cpu_on_done, clamp_release_done, cpu_on_events]
  refine ⟨and_three_lt mpidr, ?_, ?_⟩
  · intro n1 n2 n3 n4 n5 h hf
    exact ⟨_, psci_cpu_on_returns P timer fuel unused mpidr pc n1 n2 n3 n4 n5 s hc h hf,
      hdone n1 n2 n3 n4 n5⟩
  · intro r s' hret
    obtain ⟨n1, n2, n3, n4, n5, h, hf⟩ :=
      psci_cpu_on_some_expires P timer fuel unused mpidr pc s s' r hc hret
    have hrun := psci_cpu_on_returns P timer fuel unused mpidr pc n1 n2 n3 n4 n5 s hc h hf
    rw [hrun] at hret
    obtain ⟨hr, hs'⟩ := Prod.mk.inj (Option.some.inj hret)
    subst hr hs'
    exact ⟨rfl, n1, n2, n3, n4, n5, h, (hdone n1 n2 n3 n4 n5).1, (hdone n1 n2 n3 n4 n5).2.2⟩

/-- C1 on the boot machine: the power-on of core 1 of cluster 0 with the entry point
0x40008000, on a timer that sets its flag at every third read. -/
theorem psci_cpu_on_sequence_witness :
    ∃ s', psci_cpu_on sun9i timer_every_third 3 0 0x001 0x40008000 boot_machine
        = some (ARM_PSCI_RET_SUCCESS, s')
      ∧ s'.target_pc 1 = 0x40008000
      ∧ s'.trace =
        [Event.save_target_pc 1 0x40008000,
         Event.writel 0x4a000040 Reg.cpu_soft_entry,
         Event.readl (Reg.cpu_rst 0) 0x3, Event.writel 0x1 (Reg.cpu_rst 0),
         Event.readl (Reg.cluster_ctrl0 0) 0xf, Event.writel 0xd (Reg.cluster_ctrl0 0),
         Event.readl (Reg.cluster_reset 0) 0x00ff0001,
         Event.writel 0x00fd0001 (Reg.cluster_reset 0),
         Event.readl (Reg.cluster_reset 0) 0x00fd0001,
         Event.writel 0x00dd0001 (Reg.cluster_reset 0),
         Event.writel 0xff (Reg.cpu_pwr_clamp 0 1),
         Event.write_cntp_tval 240, Event.write_cntp_ctl 3, Event.read_cntp_ctl 1,
         Event.read_cntp_ctl 1, Event.read_cntp_ctl 5, Event.write_cntp_ctl 0,
         Event.writel 0xfe (Reg.cpu_pwr_clamp 0 1),
         Event.write_cntp_tval 240, Event.write_cntp_ctl 3, Event.read_cntp_ctl 1,
         Event.read_cntp_ctl 1, Event.read_cntp_ctl 5, Event.write_cntp_ctl 0,
         Event.writel 0xf8 (Reg.cpu_pwr_clamp 0 1),
         Event.write_cntp_tval 240, Event.write_cntp_ctl 3, Event.read_cntp_ctl 1,
         Event.read_cntp_ctl 1, Event.read_cntp_ctl 5, Event.write_cntp_ctl 0,
         Event.writel 0xf0 (Reg.cpu_pwr_clamp 0 1),
         Event.write_cntp_tval 240, Event.write_cntp_ctl 3, Event.read_cntp_ctl 1,
         Event.read_cntp_ctl 1, Event.read_cntp_ctl 5, Event.write_cntp_ctl 0,
         Event.writel 0x00 (Reg.cpu_pwr_clamp 0 1),
         Event.write_cntp_tval 480, Event.write_cntp_ctl 3, Event.read_cntp_ctl 1,
         Event.read_cntp_ctl 1, Event.read_cntp_ctl 5, Event.write_cntp_ctl 0,
         Event.readl (Reg.cpu_pwroff 0) 0xe, Event.writel 0xc (Reg.cpu_pwroff 0),
         Event.readl (Reg.cpu_rst 0) 0x1, Event.writel 0x3 (Reg.cpu_rst 0),
         Event.readl (Reg.cluster_reset 0) 0x00dd0001,
         Event.writel 0x00dd0003 (Reg.cluster_reset 0),
         Event.readl (Reg.cluster_reset 0) 0x00dd0003,
         Event.writel 0x00fd0003 (Reg.cluster_reset 0),
         Event.readl (Reg.cluster_reset 0) 0x00fd0003,
         Event.writel 0x00ff0003 (Reg.cluster_reset 0)] := by
  obtain ⟨s', hs, hpc, _, htr⟩ :=
    (psci_cpu_on_sequence sun9i timer_every_third 3 0 0x001 0x40008000 1 boot_machine
      (by decide) (by decide)).2.1 2 2 2 2 2 (by decide) (by decide)
  refine ⟨s', hs, hpc, ?_⟩
  rw [htr]
  rfl

/-! ## The rejected cluster -/

theorem cluster_eq_zero_or_one (mpidr : Nat) :
    psci_cpu_on_cluster mpidr = 0 ∨ psci_cpu_on_cluster mpidr = 1 := by
  have := and_one_lt (mpidr >>> 8)
  unfold psci_cpu_on_cluster
  omega

/-- A call for cluster 1 returns the error code at once and leaves the machine as it was. -/
theorem psci_cpu_on_inval (P : Platform) (timer : Nat → Nat) (fuel unused mpidr pc : Nat)
    (s : Machine) (hc : psci_cpu_on_cluster mpidr = 1) :
    psci_cpu_on P timer fuel unused mpidr pc s = some (P.ARM_PSCI_RET_INVAL, s) := by
  unfold psci_cpu_on
  simp [hc]

/-- A call for cluster 0 returns no other code than SUCCESS. -/
theorem psci_cpu_on_code_of_cluster0 (P : Platform) (timer : Nat → Nat)
    (fuel unused mpidr pc : Nat) (s s' : Machine) (r : Int)
    (hc : psci_cpu_on_cluster mpidr = 0)
    (h : psci_cpu_on P timer fuel unused mpidr pc s = some (r, s')) :
    r = ARM_PSCI_RET_SUCCESS := by
  unfold psci_cpu_on at h
  simp only [hc, gt_iff_lt, lt_irrefl, if_false, if_true, bind, pure] at h
  cases hsp : sunxi_cpu_set_power P timer fuel (psci_cpu_on_cpu mpidr) true
      (clrbits_le32 (Reg.cluster_reset 0) (P.CPUCFG_CX_RST_ETM (psci_cpu_on_cpu mpidr))
        (clrbits_le32 (Reg.cluster_reset 0) (P.CPUCFG_CX_RST_DBG (psci_cpu_on_cpu mpidr))
          (clrbits_le32 (Reg.cluster_ctrl0 0)
            (P.CPUCFG_CX_CTRL0_L1_RST_DISABLE (psci_cpu_on_cpu mpidr))
            (clrbits_le32 (Reg.cpu_rst 0) (BIT (psci_cpu_on_cpu mpidr))
              (writel P.psci_cpu_entry Reg.cpu_soft_entry
                (psci_save_target_pc (psci_cpu_on_cpuid mpidr) pc s)))))) with
  | none =>
    rw [hsp] at h
    exact Option.noConfusion h
  | some a =>
    rw [hsp] at h
    simp only [Option.bind, Option.some.injEq, Prod.mk.injEq] at h
    exact h.1.symm

/-- C2: for every core address whose cluster, `(mpidr >> 8) & 1`, is 1 and every `pc`,
`psci_cpu_on` returns INVALID and has no side effect: whatever the bound on the polls, the
machine after the call is the machine before it, so no register is written, no delay is
requested, the entry vector is not written and `pc` is not recorded in the target-PC table. -/
theorem psci_cpu_on_cluster1_no_effect (P : Platform) (timer : Nat → Nat)
    (fuel unused mpidr pc : Nat) (s : Machine) (hc : psci_cpu_on_cluster mpidr = 1) :
    psci_cpu_on P timer fuel unused mpidr pc s = some (P.ARM_PSCI_RET_INVAL, s)
    ∧ P.ARM_PSCI_RET_INVAL ≠ ARM_PSCI_RET_SUCCESS
    ∧ ∀ r s', psci_cpu_on P timer fuel unused mpidr pc s = some (r, s') →
        r = P.ARM_PSCI_RET_INVAL ∧ s'.trace = s.trace ∧ s'.regs = s.regs
          ∧ s'.target_pc = s.target_pc ∧ s'.polls = s.polls
          ∧ s'.cntp_tval = s.cntp_tval ∧ s'.cntp_ctl = s.cntp_ctl ∧ s'.scr = s.scr := by
  have hrun := psci_cpu_on_inval P timer fuel unused mpidr pc s hc
  refine ⟨hrun, P.inval_ne_zero, ?_⟩
  intro r s' h
  rw [hrun] at h
  simp only [Option.some.injEq, Prod.mk.injEq] at h
  obtain ⟨hr, hs⟩ := h
  subst hr hs
  exact ⟨rfl, rfl, rfl, rfl, rfl, rfl, rfl, rfl⟩

/-- C2 on the boot machine: a call for core 1 of cluster 1, with no poll allowed. -/
theorem psci_cpu_on_cluster1_no_effect_witness :
    psci_cpu_on sun9i timer_never 0 0 0x101 0x40008000 boot_machine
      = some (-2, boot_machine) :=
  (psci_cpu_on_cluster1_no_effect sun9i timer_never 0 0 0x101 0x40008000 boot_machine
    (by decide)).1

theorem cluster_eq_bit8 (mpidr : Nat) : psci_cpu_on_cluster mpidr = (mpidr / 256) % 2 := by
  unfold psci_cpu_on_cluster
  rw [Nat.shiftRight_eq_div_pow, Nat.and_one_is_mod]

/-- C3, amended: for every core address and every `pc`, `psci_cpu_on` returns SUCCESS (0),
once its five delays have ended, if bit 8 of the address, which is the cluster as the code
decomposes it, `(mpidr >> 8) & 1`, is 0, and it never returns another code then; it returns
INVALID (a nonzero code) if that bit is 1. Bit 9 of the address is not examined: the two
values of bit 8 are the only cases. -/
theorem psci_cpu_on_return_code (P : Platform) (timer : Nat → Nat) (unused mpidr pc : Nat)
    (s : Machine) :
    (psci_cpu_on_cluster mpidr = 0 →
      (∀ fuel n1 n2 n3 n4 n5, DelaysExpire timer s.polls n1 n2 n3 n4 n5 →
        n1 < fuel ∧ n2 < fuel ∧ n3 < fuel ∧ n4 < fuel ∧ n5 < fuel →
        (psci_cpu_on P timer fuel unused mpidr pc s).map Prod.fst = some ARM_PSCI_RET_SUCCESS)
      ∧ (∀ fuel r s', psci_cpu_on P timer fuel unused mpidr pc s = some (r, s') →
        r = ARM_PSCI_RET_SUCCESS))
    ∧ (psci_cpu_on_cluster mpidr = 1 →
      ∀ fuel, psci_cpu_on P timer fuel unused mpidr pc s = some (P.ARM_PSCI_RET_INVAL, s))
    ∧ ARM_PSCI_RET_SUCCESS = 0
    ∧ P.ARM_PSCI_RET_INVAL ≠ 0
    ∧ psci_cpu_on_cluster mpidr = (mpidr / 256) % 2
    ∧ (psci_cpu_on_cluster mpidr = 0 ∨ psci_cpu_on_cluster mpidr = 1) := by
  refine ⟨fun hc => ⟨?_, ?_⟩, ?_, rfl, P.inval_ne_zero, cluster_eq_bit8 mpidr,
    cluster_eq_zero_or_one mpidr⟩
  · intro fuel n1 n2 n3 n4 n5 h hf
    rw [psci_cpu_on_returns P timer fuel unused mpidr pc n1 n2 n3 n4 n5 s hc h hf]
    rfl
  · intro fuel r s' h
    exact psci_cpu_on_code_of_cluster0 P timer fuel unused mpidr pc s s' r hc h
  · intro hc fuel
    exact psci_cpu_on_inval P timer fuel unused mpidr pc s hc

/-- C3, amended, on the boot machine: the address 0x001 (bit 8 clear) gives SUCCESS and the
addresses 0x101 and 0x301 (bit 8 set) give the error code. -/
theorem psci_cpu_on_return_code_witness :
    (psci_cpu_on sun9i timer_every_third 3 0 0x001 0x40008000 boot_machine).map Prod.fst
        = some 0
    ∧ (psci_cpu_on sun9i timer_every_third 3 0 0x101 0x40008000 boot_machine).map Prod.fst
        = some (-2)
    ∧ (psci_cpu_on sun9i timer_every_third 3 0 0x301 0x40008000 boot_machine).map Prod.fst
        = some (-2) := by
  refine ⟨?_, ?_, ?_⟩
  · exact ((psci_cpu_on_return_code sun9i timer_every_third 0 0x001 0x40008000
      boot_machine).1 (by decide)).1 3 2 2 2 2 2 (by decide) (by decide)
  · rw [(psci_cpu_on_return_code sun9i timer_every_third 0 0x101 0x40008000
      boot_machine).2.1 (by decide) 3]
    rfl
  · rw [(psci_cpu_on_return_code sun9i timer_every_third 0 0x301 0x40008000
      boot_machine).2.1 (by decide) 3]
    rfl

/-- C3 as stated fails: the address 0x200 has the cluster field, bits [9:8], equal to 2,
which is greater than 0, and `psci_cpu_on` returns SUCCESS for it, not INVALID, after
running the power-on sequence on core 0 of cluster 0. -/
theorem psci_cpu_on_cluster_field_two :
    (0x200 >>> 8) &&& 0x3 = 2
    ∧ (psci_cpu_on sun9i timer_every_third 3 0 0x200 0x40008000 boot_machine).map Prod.fst
        = some ARM_PSCI_RET_SUCCESS
    ∧ (psci_cpu_on sun9i timer_every_third 3 0 0x200 0x40008000 boot_machine).map Prod.fst
        ≠ some sun9i.ARM_PSCI_RET_INVAL
    ∧ (psci_cpu_on sun9i timer_every_third 3 0 0x200 0x40008000 boot_machine).map
        (fun x => written x.2.trace)
        = some [Reg.cpu_soft_entry, Reg.cpu_rst 0, Reg.cluster_ctrl0 0, Reg.cluster_reset 0,
            Reg.cluster_reset 0, Reg.cpu_pwr_clamp 0 0, Reg.cpu_pwr_clamp 0 0,
            Reg.cpu_pwr_clamp 0 0, Reg.cpu_pwr_clamp 0 0, Reg.cpu_pwr_clamp 0 0,
            Reg.cpu_pwroff 0, Reg.cpu_rst 0, Reg.cluster_reset 0, Reg.cluster_reset 0,
            Reg.cluster_reset 0] := by
  refine ⟨by decide, ?_, ?_, ?_⟩
  · decide
  · decide
  · decide

/-! ## The registers after a power-on -/

theorem clr32_eq_and (v m : Nat) (hv : v < 2 ^ 32) :
    clr32 v m = v &&& (0xFFFFFFFF ^^^ m) := by
  unfold clr32
  exact Nat.mod_eq_of_lt (lt_of_le_of_lt Nat.and_le_left hv)

theorem testBit_clr32_BIT (v k i : Nat) :
    (clr32 v (BIT k)).testBit i = (decide (i < 32) && (v.testBit i && !decide (k = i))) := by
  rw [clr32, testBit_clr, testBit_BIT]

theorem testBit_set32_BIT (v k i : Nat) :
    (set32 v (BIT k)).testBit i = (decide (i < 32) && (v.testBit i || decide (k = i))) := by
  rw [set32, testBit_set, testBit_BIT]

/-- Clearing bit `k` of a 32-bit word and then setting it gives the word with bit `k` set. -/
theorem set32_clr32 (v k : Nat) (hv : v < 2 ^ 32) (hk : k < 32) :
    set32 (clr32 v (BIT k)) (BIT k) = v ||| BIT k := by
  apply Nat.eq_of_testBit_eq
  intro i
  rw [testBit_set32_BIT, testBit_clr32_BIT, Nat.testBit_or, testBit_BIT]
  by_cases hi : i < 32
  · by_cases hki : k = i <;> simp [hi, hki]
  · have hvi : v.testBit i = false := testBit_eq_false_of_lt hv (by omega)
    have hki : ¬ (k = i) := by omega
    simp [hi, hvi, hki]

theorem boot_machine_wf (r : Reg) : boot_machine.regs r < 2 ^ 32 := by
  unfold boot_machine
  dsimp only
  split <;> decide

/-- C10: on a register file of 32-bit registers in which each read returns the value last
written, for every initial state and every `psci_cpu_on` call for core `k` of cluster 0 that
returns SUCCESS: cpu_rst[0] is its initial value with bit `k` set, cpu_pwroff[0] is its
initial value with bit `k` cleared and cpu_pwr_clamp[0][k] holds 0x00; the other bits of
cpu_rst[0] and of cpu_pwroff[0] are unchanged; no clamp register of another core and no
reset, gating, clamp or configuration register of another cluster is written or changed. The
call does return SUCCESS once each of its five delays has read the expiry flag set. -/
theorem psci_cpu_on_frame (P : Platform) (timer : Nat → Nat) (fuel unused mpidr pc k : Nat)
    (s : Machine)
    (hc : psci_cpu_on_cluster mpidr = 0) (hk : psci_cpu_on_cpu mpidr = k)
    (hwf : ∀ r, s.regs r < 2 ^ 32) :
    (∀ n1 n2 n3 n4 n5, DelaysExpire timer s.polls n1 n2 n3 n4 n5 →
      n1 < fuel ∧ n2 < fuel ∧ n3 < fuel ∧ n4 < fuel ∧ n5 < fuel →
      ∃ s', psci_cpu_on P timer fuel unused mpidr pc s = some (ARM_PSCI_RET_SUCCESS, s'))
    ∧ ∀ s', psci_cpu_on P timer fuel unused mpidr pc s = some (ARM_PSCI_RET_SUCCESS, s') →
      ∃ evs, s'.trace = s.trace ++ evs
      ∧ s'.regs (Reg.cpu_rst 0) = s.regs (Reg.cpu_rst 0) ||| BIT k
      ∧ s'.regs (Reg.cpu_pwroff 0) = s.regs (Reg.cpu_pwroff 0) &&& (0xFFFFFFFF ^^^ BIT k)
      ∧ s'.regs (Reg.cpu_pwr_clamp 0 k) = 0x00
      ∧ (s'.regs (Reg.cpu_rst 0)).testBit k = true
      ∧ (s'.regs (Reg.cpu_pwroff 0)).testBit k = false
      ∧ (∀ i, i ≠ k →
          (s'.regs (Reg.cpu_rst 0)).testBit i = (s.regs (Reg.cpu_rst 0)).testBit i)
      ∧ (∀ i, i ≠ k →
          (s'.regs (Reg.cpu_pwroff 0)).testBit i = (s.regs (Reg.cpu_pwroff 0)).testBit i)
      ∧ written evs
          = [Reg.cpu_soft_entry, Reg.cpu_rst 0, Reg.cluster_ctrl0 0, Reg.cluster_reset 0,
             Reg.cluster_reset 0, Reg.cpu_pwr_clamp 0 k, Reg.cpu_pwr_clamp 0 k,
             Reg.cpu_pwr_clamp 0 k, Reg.cpu_pwr_clamp 0 k, Reg.cpu_pwr_clamp 0 k,
             Reg.cpu_pwroff 0, Reg.cpu_rst 0, Reg.cluster_reset 0, Reg.cluster_reset 0,
             Reg.cluster_reset 0]
      ∧ (∀ c j, ¬ (c = 0 ∧ j = k) →
          Reg.cpu_pwr_clamp c j ∉ written evs
          ∧ s'.regs (Reg.cpu_pwr_clamp c j) = s.regs (Reg.cpu_pwr_clamp c j))
      ∧ (∀ c, c ≠ 0 →
          Reg.cpu_rst c ∉ written evs ∧ Reg.cpu_pwroff c ∉ written evs
          ∧ Reg.cluster_reset c ∉ written evs ∧ Reg.cluster_ctrl0 c ∉ written evs
          ∧ s'.regs (Reg.cpu_rst c) = s.regs (Reg.cpu_rst c)
          ∧ s'.regs (Reg.cpu_pwroff c) = s.regs (Reg.cpu_pwroff c)
          ∧ s'.regs (Reg.cluster_reset c) = s.regs (Reg.cluster_reset c)
          ∧ s'.regs (Reg.cluster_ctrl0 c) = s.regs (Reg.cluster_ctrl0 c)) := by
  have hk4 : k < 4 := hk ▸ and_three_lt mpidr
  have hk32 : k < 32 := by omega
  refine ⟨fun n1 n2 n3 n4 n5 h hf =>
    ⟨_, psci_cpu_on_returns P timer fuel unused mpidr pc n1 n2 n3 n4 n5 s hc h hf⟩, ?_⟩
  intro s' hret
  obtain ⟨n1, n2, n3, n4, n5, h, hf⟩ :=
    psci_cpu_on_some_expires P timer fuel unused mpidr pc s s' _ hc hret
  have hrun := psci_cpu_on_returns P timer fuel unused mpidr pc n1 n2 n3 n4 n5 s hc h hf
  rw [hk] at hrun
  rw [hrun] at hret
  have hs' : s' = cpu_on_done P timer k pc n1 n2 n3 n4 n5 s :=
    (Prod.mk.inj (Option.some.inj hret)).2.symm
  subst hs'
  have hrst : (cpu_on_done P timer k pc n1 n2 n3 n4 n5 s).regs (Reg.cpu_rst 0)
      = s.regs (Reg.cpu_rst 0) ||| BIT k := by
    rw [← set32_clr32 _ k (hwf (Reg.cpu_rst 0)) hk32]
    simp [cpu_on_done, clamp_release_done]
  have hoff : (cpu_on_done P timer k pc n1 n2 n3 n4 n5 s).regs (Reg.cpu_pwroff 0)
      = s.regs (Reg.cpu_pwroff 0) &&& (0xFFFFFFFF ^^^ BIT k) := by
    rw [← clr32_eq_and _ _ (hwf (Reg.cpu_pwroff 0))]
    simp [cpu_on_done, clamp_release_done]
  have hwr : written (cpu_on_events P timer k pc n1 n2 n3 n4 n5 s)
      = [Reg.cpu_soft_entry, Reg.cpu_rst 0, Reg.cluster_ctrl0 0, Reg.cluster_reset 0,
         Reg.cluster_reset 0, Reg.cpu_pwr_clamp 0 k, Reg.cpu_pwr_clamp 0 k,
         Reg.cpu_pwr_clamp 0 k, Reg.cpu_pwr_clamp 0 k, Reg.cpu_pwr_clamp 0 k,
         Reg.cpu_pwroff 0, Reg.cpu_rst 0, Reg.cluster_reset 0, Reg.cluster_reset 0,
         Reg.cluster_reset 0] := by
    simp [cpu_on_events]
  refine ⟨cpu_on_events P timer k pc n1 n2 n3 n4 n5 s, ?_, hrst, hoff, ?_, ?_, ?_,
    ?_, ?_, hwr, ?_, ?_⟩
  · simp [cpu_on_done, clamp_release_done, cpu_on_events]
  · simp [cpu_on_done, clamp_release_done]
  · rw [hrst, Nat.testBit_or, testBit_BIT]
    simp
  · rw [hoff, ← clr32_eq_and _ _ (hwf (Reg.cpu_pwroff 0)), testBit_clr32_BIT]
    simp
  · intro i hi
    have hne : ¬ (k = i) := fun e => hi e.symm
    rw [hrst, Nat.testBit_or, testBit_BIT]
    simp [hne]
  · intro i hi
    have hne : ¬ (k = i) := fun e => hi e.symm
    rw [hoff, ← clr32_eq_and _ _ (hwf (Reg.cpu_pwroff 0)), testBit_clr32_BIT]
    by_cases h32 : i < 32
    · simp [h32, hne]
    · rw [testBit_eq_false_of_lt (hwf (Reg.cpu_pwroff 0)) (by omega)]
      simp
  · intro c j hcj
    have hreg : ¬ (Reg.cpu_pwr_clamp c j = Reg.cpu_pwr_clamp 0 k) := by
      intro e
      injection e with e1 e2
      exact hcj ⟨e1, e2⟩
    refine ⟨?_, ?_⟩
    · rw [hwr]
      simp [hreg]
    · simp [cpu_on_done, clamp_release_done, hcj]
  · intro c hc0
    rw [hwr]
    refine ⟨?_, ?_, ?_, ?_, ?_, ?_, ?_, ?_⟩ <;> simp [cpu_on_done, clamp_release_done, hc0]

/-- C10 on the boot machine: after the power-on of core 1 of cluster 0, cpu_rst[0] goes from
0x3 to 0x3, cpu_pwroff[0] from 0xe to 0xc, the clamp of core 1 from 0xff to 0x00, and the
clamp of core 2 and the registers of cluster 1 are as before. -/
theorem psci_cpu_on_frame_witness :
    ∃ s', psci_cpu_on sun9i timer_every_third 3 0 0x001 0x40008000 boot_machine
        = some (ARM_PSCI_RET_SUCCESS, s')
      ∧ s'.regs (Reg.cpu_rst 0) = 0x3
      ∧ s'.regs (Reg.cpu_pwroff 0) = 0xc
      ∧ s'.regs (Reg.cpu_pwr_clamp 0 1) = 0x00
      ∧ s'.regs (Reg.cpu_pwr_clamp 0 2) = 0xff
      ∧ s'.regs (Reg.cpu_pwroff 1) = 0xe
      ∧ s'.regs (Reg.cpu_rst 1) = 0x0 := by
  have hthm := psci_cpu_on_frame sun9i timer_every_third 3 0 0x001 0x40008000 1 boot_machine
    (by decide) (by decide) boot_machine_wf
  obtain ⟨s', hs⟩ := hthm.1 2 2 2 2 2 (by decide) (by decide)
  obtain ⟨_, _, hrst, hoff, hclamp, _, _, _, _, _, hother, hcl⟩ := hthm.2 s' hs
  refine ⟨s', hs, ?_, ?_, hclamp, ?_, ?_, ?_⟩
  · rw [hrst]; rfl
  · rw [hoff]; rfl
  · rw [(hother 0 2 (by decide)).2]; rfl
  · rw [(hcl 1 (by decide)).2.2.2.2.2.1]; rfl
  · rw [(hcl 1 (by decide)).2.2.2.2.1]; rfl

end PsciMcpm
